import Mathlib

/-!
Verification of the glazier windowing layer (wayland and macOS backends).

The Rust sources are shallowly embedded: instants and durations are modelled
as microsecond timestamps (`Nat`), `f64` display-point coordinates as exact
rationals (`ℚ`), and the side effects each function performs on native
handles (calloop timer sources, xdg surfaces, AppKit objects) are returned
as explicit lists of operations.
-/

namespace Glazier

/-- Logical size in display points. The source stores `f64` coordinates
(`kurbo::Size`); the coordinates are modelled as exact rationals. -/
structure Size where
  width : ℚ
  height : ℚ
deriving DecidableEq, Repr

/-- `kurbo::Size::ZERO`. -/
def Size.ZERO : Size := ⟨0, 0⟩

namespace wayland

/-- Modelled from the spec: `Timer` lives in `wayland/application.rs`, which is
not among the sources; per the spec a timer is "a monotonically increasing
identifier paired with a deadline (`Instant`)".  `Timer::new(id, deadline)`
pairs a window id and a deadline with a freshly allocated token. -/
structure Timer where
  window_id : Nat
  deadline : Nat
  token : Nat
deriving DecidableEq, Repr

/-- Modelled from the spec: `appdata.timers` (in `wayland/application.rs`, not
among the sources) is "a min-heap [ordered] by deadline" whose invariant is
that "the heap's top is always the next timer to fire".  The heap is modelled
as the list of pending timers and `peek` as the minimal pending deadline. -/
def peekDeadline : List Timer → Option Nat
  | [] => none
  | t :: ts =>
    match peekDeadline ts with
    | none => some t.deadline
    | some d => some (min t.deadline d)

/-- The application state touched by `request_timer`: the pending-timer heap
and the token counter (`TimerToken::next()` is a monotonically increasing
counter, modelled from the spec). -/
structure TimerAppData where
  timers : List Timer
  next_token : Nat
deriving DecidableEq, Repr

/-- A native operation performed on `appdata.timer_handle` (the calloop timer
source handle). -/
inductive NativeTimerOp
  | cancel_all_timeouts
  | add_timeout (timeout : Nat) (token : Nat)
deriving DecidableEq, Repr

/-- Result of `request_timer`: the updated application state, the returned
token, the computed timeout, and the operations issued to the native timer
source. -/
structure RequestTimerOut where
  state : TimerAppData
  token : Nat
  timeout : Nat
  ops : List NativeTimerOp
deriving DecidableEq, Repr

/-- `WindowHandle::request_timer` (wayland/window.rs:649-683), the branch for a
live window.  `sooner` is `timers.peek().map(|t| deadline < t.deadline()).unwrap_or(true)`;
the timer is pushed onto the heap; the timeout is `Duration::ZERO` when the
deadline already passed, else `deadline - now`; and only when `sooner` holds
are all pending native timeouts cancelled and the new timeout added. -/
def request_timer (wid deadline now : Nat) (s : TimerAppData) : RequestTimerOut :=
  let sooner : Bool :=
    match peekDeadline s.timers with
    | some d => decide (deadline < d)
    | none => true
  let timer : Timer := ⟨wid, deadline, s.next_token⟩
  let timers := timer :: s.timers
  let timeout := if deadline < now then 0 else deadline - now
  let ops : List NativeTimerOp :=
    if sooner then [.cancel_all_timeouts, .add_timeout timeout timer.token] else []
  { state := ⟨timers, s.next_token + 1⟩, token := timer.token, timeout := timeout, ops := ops }

end wayland

namespace mac

/-- `time_interval_from_deadline` (mac/window.rs:1661-1671).  Instants are
microsecond timestamps; the `f64` result `secs + subsec_micros * 0.000_001`
is modelled as an exact rational.  When `now >= deadline` the source returns
the literal `0.0`. -/
def time_interval_from_deadline (deadline now : Nat) : ℚ :=
  if now ≥ deadline then 0
  else
    let t := deadline - now
    ((t / 1000000 : Nat) : ℚ) + ((t % 1000000 : Nat) : ℚ) * (1 / 1000000)

end mac

namespace wayland

/-- `DecorationMode` (sctk `xdg::window::DecorationMode`). -/
inductive DecorationMode
  | Client
  | Server
deriving DecidableEq, Repr

/-- The received configure (sctk `WindowConfigure`), restricted to the fields
the window code reads: the decoration mode, the proposed new size
(`(Option<NonZeroU32>, Option<NonZeroU32>)`), and the window states consulted
by `is_stateless`. -/
structure WindowConfigure where
  decoration_mode : DecorationMode
  new_width : Option Nat
  new_height : Option Nat
  is_maximized : Bool
  is_fullscreen : Bool
  is_tiled : Bool
deriving DecidableEq, Repr

/-- The client-side decorations frame (the external `sctk_adwaita::AdwaitaFrame`
behind the `DecorationsFrame` trait), restricted to the interface the window
code consumes: border insets for `add_borders`/`subtract_borders`, the
content location inside the outer window, and the hidden flag. -/
structure Frame where
  border_left : Nat
  border_right : Nat
  border_top : Nat
  border_bottom : Nat
  hidden : Bool
  loc_x : Int
  loc_y : Int
deriving DecidableEq, Repr

/-- `DecorationsFrame::add_borders`: the outer size is the content size plus
the frame border insets. -/
def Frame.add_borders (f : Frame) (w h : Nat) : Nat × Nat :=
  (w + f.border_left + f.border_right, h + f.border_top + f.border_bottom)

/-- `DecorationsFrame::subtract_borders`: the content size is the outer size
minus the border insets, returned as `Option<NonZeroU32>` components. -/
def Frame.subtract_borders (f : Frame) (w h : Nat) : Option Nat × Option Nat :=
  let w' := w - (f.border_left + f.border_right)
  let h' := h - (f.border_top + f.border_bottom)
  (if w' = 0 then none else some w', if h' = 0 then none else some h')

/-- A Rust `f64 as u32` cast: truncation toward zero, saturating at the bounds. -/
def ratAsU32 (q : ℚ) : Nat :=
  if q ≤ 0 then 0 else min q.floor.toNat 4294967295

/-- A Rust `f64 as i32` cast: truncation toward zero, saturating at the bounds. -/
def ratAsI32 (q : ℚ) : Int :=
  if q ≤ -2147483648 then -2147483648
  else if 2147483647 ≤ q then 2147483647
  else if q < 0 then -((-q).floor) else q.floor

/-- A `u32` submitted where the protocol takes an `i32` (`as i32`). -/
def u32AsI32 (n : Nat) : Int :=
  Int.ofNat (min n 2147483647)

/-- The arguments of `xdg_surface.set_window_geometry(x, y, width, height)`. -/
structure GeometryCall where
  x : Int
  y : Int
  width : Int
  height : Int
deriving DecidableEq, Repr

/-- The wayland `Inner` window state (wayland/window.rs:78-141), restricted to
the fields read or written by the operations under verification.  Fields tied
to live native objects (connection, surface, queue handle, pointers, handler,
title, viewport) are omitted; the idle queue holds opaque items. -/
structure Inner where
  id : Nat
  frame : Option Frame
  last_configure : Option WindowConfigure
  size : Size
  csd_fails : Bool
  needs_redraw : Bool
  stateless_size : Size
  idle_queue : List Nat
deriving DecidableEq, Repr

/-- `WindowHandle` (wayland/window.rs:223-226): shared, possibly absent inner
state. -/
structure WindowHandle where
  inner : Option Inner
deriving DecidableEq, Repr

/-- `impl Default for WindowHandle` (wayland/window.rs:797-803): the inner
state is absent. -/
def WindowHandle.default : WindowHandle := ⟨none⟩

/-- `WindowHandle::is_stateless` (wayland/window.rs:362-365). -/
def is_stateless (c : WindowConfigure) : Bool :=
  !(c.is_maximized || c.is_fullscreen || c.is_tiled)

/-- The body of `WindowHandle::set_size` (wayland/window.rs:501-546) for a
present `Inner`: store the content size, refresh `stateless_size` when the
last received configure was stateless, and submit the outer window geometry
— the content size plus the frame border insets when a frame is present, the
content size itself otherwise — to the compositor.  (The frame's own
`resize` and the transparency hint are visual effects with no bearing on the
modelled state.) -/
def set_size_inner (size : Size) (inner : Inner) : Inner × GeometryCall :=
  let inner := { inner with size := size }
  let inner :=
    if inner.last_configure.map is_stateless = some true then
      { inner with stateless_size := size }
    else inner
  match inner.frame with
  | some frame =>
      let outer := frame.add_borders (ratAsU32 inner.size.width) (ratAsU32 inner.size.height)
      (inner, ⟨frame.loc_x, frame.loc_y, u32AsI32 outer.1, u32AsI32 outer.2⟩)
  | none =>
      (inner, ⟨0, 0, ratAsI32 inner.size.width, ratAsI32 inner.size.height⟩)

/-- `WindowHandle::set_size`: a no-op (no state change, no geometry submitted)
when the inner state is absent. -/
def set_size (h : WindowHandle) (size : Size) : WindowHandle × Option GeometryCall :=
  match h.inner with
  | none => (h, none)
  | some inner =>
      let r := set_size_inner size inner
      (⟨some r.1⟩, some r.2)

/-- `WindowHandle::get_size` (wayland/window.rs:548-554). -/
def get_size (h : WindowHandle) : Size :=
  match h.inner with
  | some inner => inner.size
  | none => Size.ZERO

/-- `idle::Handle` (`surfaces/idle.rs` is not among the sources).  Modelled
from the spec: an `IdleHandle` is a reference to the window's idle queue;
only its presence matters for the claims, items are opaque. -/
structure IdleHandle where
  queue : List Nat
deriving DecidableEq, Repr

/-- `WindowHandle::get_idle_handle` (wayland/window.rs:717-722). -/
def get_idle_handle (h : WindowHandle) : Option IdleHandle :=
  h.inner.map (fun inner => ⟨inner.idle_queue⟩)

/-- The application-wide state touched by `close` and `build`.  The struct
`application::Data` is declared in `wayland/application.rs` (not among the
sources); its fields are used throughout wayland/window.rs and keyboard.rs:
`handles` is the id→handle registry (`im::OrdMap<u64, WindowHandle>`,
modelled by its key list) and `active_surface_id` the active-surface stack
(`VecDeque<u64>`, list head = deque front). -/
structure AppData where
  handles : List Nat
  active_surface_id : List Nat
deriving DecidableEq, Repr

/-- `WindowHandle::close` (wayland/window.rs:570-585): when the inner state is
present, remove this window's id from the registry, pop the front of the
active-surface stack (whatever id is there), and destroy the surface (a
compositor-side effect outside the modelled state); when absent, do nothing.
`close` never clears `inner`, so the handle itself is left unchanged. -/
def close (h : WindowHandle) (app : AppData) : AppData :=
  match h.inner with
  | none => app
  | some inner =>
      { handles := app.handles.erase inner.id,
        active_surface_id := app.active_surface_id.tail }

/-- `WindowHandle::configure` (wayland/window.rs:255-335) acting on a present
`Inner`.  `candidate_frame` stands for the `AdwaitaFrame::new` construction
attempt made when client decorations are mandated and no frame exists yet:
`some f` if the frame can be built (the code then applies `set_hidden(false)`),
`none` if construction fails (then `csd_fails` is set).  Returns the updated
inner state, the geometry submitted by the nested `set_size` call, and the
new content size passed to `handler.size`. -/
def configure (c : WindowConfigure) (candidate_frame : Option Frame) (inner : Inner) :
    Inner × GeometryCall × Size :=
  let inner :=
    if c.decoration_mode = DecorationMode.Client ∧ inner.frame = none ∧ inner.csd_fails = false then
      match candidate_frame with
      | some f => { inner with frame := some { f with hidden := false } }
      | none => { inner with csd_fails := true }
    else if c.decoration_mode = DecorationMode.Server then
      { inner with frame := none }
    else inner
  let stateless := is_stateless c
  let new_size : Size :=
    match inner.frame with
    | some frame =>
        match c.new_width, c.new_height with
        | some w, some h =>
            let sub := frame.subtract_borders w h
            ⟨((sub.1.getD 1 : Nat) : ℚ), ((sub.2.getD 1 : Nat) : ℚ)⟩
        | _, _ => if stateless then inner.stateless_size else inner.size
    | none =>
        match c.new_width, c.new_height with
        | some w, some h => ⟨(w : ℚ), (h : ℚ)⟩
        | _, _ => if stateless then inner.stateless_size else inner.size
  let inner := { inner with last_configure := some c }
  let r := set_size_inner new_size inner
  (r.1, r.2, new_size)

/-- The `Inner` constructed by `WindowBuilder::build` (wayland/window.rs:958-983)
for a window of the given id and builder size. -/
def builtInner (id : Nat) (size : Size) : Inner :=
  { id := id, frame := none, last_configure := none, size := size,
    csd_fails := false, needs_redraw := true, stateless_size := size,
    idle_queue := [] }

/-- The registry effect of `WindowBuilder::build` (wayland/window.rs:985-1001):
insert the id→handle entry into the registry and push the id onto the front
of the active-surface stack. -/
def build_registry (id : Nat) (app : AppData) : AppData :=
  { handles := app.handles ++ [id], active_surface_id := id :: app.active_surface_id }

/-- `RepeatInfo` (wayland/keyboard.rs:66-80).  Durations are microseconds. -/
inductive RepeatInfo
  | Repeat (gap : Nat) (delay : Nat)
  | Disable
deriving DecidableEq, Repr

/-- `impl Default for RepeatInfo` (wayland/keyboard.rs:82-92): a 40ms gap
(25 keys per second) with a 200ms delay. -/
def RepeatInfo.default : RepeatInfo := .Repeat 40000 200000

/-- The repeat-related fields of `KeyboardState` (wayland/keyboard.rs:27-48)
together with the calloop registrations this code manipulates: `sources` is
the list of repeat-timer sources currently registered in the event loop
(identified by their `RegistrationToken`s) and `next_reg` a fresh-token
counter for `insert_source`. -/
@[ext]
structure KbState where
  repeat_info : RepeatInfo
  repeat_token : Option Nat
  current_repeat : Option Nat
  sources : List Nat
  next_reg : Nat
deriving DecidableEq, Repr

/-- The keyboard state built by `KeyboardState::new` (wayland/keyboard.rs:50-64),
with no source registered in the loop. -/
def KbState.init : KbState :=
  { repeat_info := RepeatInfo.default, repeat_token := none, current_repeat := none,
    sources := [], next_reg := 0 }

/-- The `wl_keyboard` events handled by `Dispatch::event`
(wayland/keyboard.rs:112-303) that touch the repeat state, plus the firing of
a registered repeat timer (the timer closure, wayland/keyboard.rs:230-256). -/
inductive KbEvent
  | enter
  | leave
  | key_pressed (key : Nat)
  | key_released (key : Nat)
  | repeat_info_changed (rate : Nat) (delay : Nat)
  | timer_fired (tok : Nat)
deriving DecidableEq, Repr

/-- `keyboard_state.repeat_token.take()` followed by
`loop_handle.remove(token)` when a token was present (the idiom at
wayland/keyboard.rs:221-223 and :291-293): clear the stored token and
deregister that source from the loop. -/
def take_repeat_token (s : KbState) : KbState :=
  match s.repeat_token with
  | some tok => { s with repeat_token := none, sources := s.sources.erase tok }
  | none => s

/-- One dispatch step of the wayland keyboard repeat state machine.
`enter`/`leave` drop the current repeat key (wayland/keyboard.rs:177-192).
A key press (:193-258) emits the key, and — unless repeat is disabled —
records `key + 8` as the current repeat key, removes the previously
registered repeat timer from the loop, and registers a fresh one.  A key
release (:259-275) clears the current repeat key when repeat is enabled.
`RepeatInfo` (:286-300) with rate 0 clears the current repeat key, removes
the registered timer and disables repeat; with a nonzero rate it stores
`gap = 1_000_000µs / rate` and the delay in milliseconds.  A registered
timer that fires (:230-256) drops its source when the current repeat key is
gone or repeat is disabled, and stays registered otherwise
(`TimeoutAction::ToDuration(gap)`). -/
def kb_step (e : KbEvent) (s : KbState) : KbState :=
  match e with
  | .enter => { s with current_repeat := none }
  | .leave => { s with current_repeat := none }
  | .key_pressed key =>
      let key := key + 8
      match s.repeat_info with
      | .Disable => s
      | .Repeat _ _ =>
          let s := take_repeat_token { s with current_repeat := some key }
          { s with repeat_token := some s.next_reg,
                   sources := s.next_reg :: s.sources, next_reg := s.next_reg + 1 }
  | .key_released _ =>
      if s.repeat_info ≠ .Disable then { s with current_repeat := none } else s
  | .repeat_info_changed rate delay =>
      if rate = 0 then
        let s := take_repeat_token { s with current_repeat := none }
        { s with repeat_info := .Disable }
      else
        { s with repeat_info := .Repeat (1000000 / rate) (1000 * delay) }
  | .timer_fired tok =>
      if tok ∈ s.sources then
        match s.current_repeat with
        | none => { s with sources := s.sources.erase tok }
        | some _ =>
            match s.repeat_info with
            | .Repeat _ _ => s
            | .Disable => { s with sources := s.sources.erase tok }
      else s

/-- A run of the keyboard state machine over a list of dispatched events. -/
def kb_run : List KbEvent → KbState → KbState
  | [], s => s
  | e :: es, s => kb_run es (kb_step e s)

/-- A handler call made by the wayland keyboard input path. -/
inductive WlKeyCall
  | key_down_handler (ev : Nat)
  | key_up_handler (ev : Nat)
deriving DecidableEq, Repr

/-- Key direction (`crate::keyboard_types::KeyState`). -/
inductive KeyState
  | Down
  | Up
deriving DecidableEq, Repr

/-- `key_input` (wayland/keyboard.rs:306-341) for a focused window with a live
handler: build the normalized event (identified by an opaque id) and invoke
the handler's `key_down` or `key_up`.  The boolean `key_down` returns is
discarded (`handler.borrow_mut().key_down(event);`) and no further call is
made: the wayland backend has no text-input/IME forwarding (the text-field
methods, wayland/window.rs:633-647, are no-ops).  The second component is the
native event forwarded to a text-input system — always `none`. -/
def key_input (handler_key_down : Nat → Bool) (event : Nat) :
    KeyState → List WlKeyCall × Option Nat
  | .Down =>
      let _consumed := handler_key_down event
      ([.key_down_handler event], none)
  | .Up => ([.key_up_handler event], none)

end wayland

namespace mac

/-- `IdleKind` (mac/window.rs:174-179).  The payloads (boxed closure, idle
token, deferred op) are identified by opaque ids. -/
inductive IdleKind
  | Callback (id : Nat)
  | Token (tok : Nat)
  | DeferredOp (op : Nat)
deriving DecidableEq, Repr

/-- The slice of `ViewState` (mac/window.rs:182-198) relevant to the idle
queue: the shared queue itself, plus two observation logs — the items
executed by drain passes, in execution order, and the number of `runIdle`
wakes posted to the main thread. -/
structure IdleViewState where
  idle_queue : List IdleKind
  executed : List IdleKind
  wakes : Nat
deriving DecidableEq, Repr

/-- `IdleHandle::add_idle` (mac/window.rs:1583-1596) with the queue still
alive: when the queue is empty, post a `runIdle` wake to the main thread;
then push the item. -/
def add_idle (item : IdleKind) (s : IdleViewState) : IdleViewState :=
  { s with
    wakes := if s.idle_queue.isEmpty then s.wakes + 1 else s.wakes,
    idle_queue := s.idle_queue ++ [item] }

/-- Executing one drained item (the body of the `for` loop in `run_idle`,
mac/window.rs:1057-1065).  What the executed callback, idle hook, or deferred
op does to the queue is abstracted by `enq`: the items it enqueues through
`IdleHandle::add_idle` while it runs, in order. -/
def execute_item (enq : IdleKind → List IdleKind) (s : IdleViewState) (item : IdleKind) :
    IdleViewState :=
  (enq item).foldl (fun st it => add_idle it st) { s with executed := s.executed ++ [item] }

/-- `run_idle` (mac/window.rs:1051-1066): `mem::take` swaps the whole shared
queue out at once, leaving it empty, then executes the taken items in their
original order. -/
def run_idle (enq : IdleKind → List IdleKind) (s : IdleViewState) : IdleViewState :=
  let queue := s.idle_queue
  queue.foldl (execute_item enq) { s with idle_queue := [] }

/-- A call the view makes while handling a native key event: the handler's
`key_down` with the normalized event, or `interpretKeyEvents` on the native
text-input system with the original native event object.  Native events and
normalized events are identified by opaque ids. -/
inductive KeyCall
  | key_down_handler (ev : Nat)
  | interpret_key_events (nsevent : Nat)
deriving DecidableEq, Repr

/-- `key_down` (mac/window.rs:921-935).  `process_native_event` is
`KeyboardState::process_native_event` (`None` when the native event produces
no normalized event); `handler_key_down` is the handler's `key_down`,
returning whether it consumed the event.  When the handler does not consume
the event, the original `nsevent` — not the normalized form — is passed to
`interpretKeyEvents`. -/
def key_down (process_native_event : Nat → Option Nat)
    (handler_key_down : Nat → Bool) (nsevent : Nat) : List KeyCall :=
  match process_native_event nsevent with
  | none => []
  | some event =>
      if handler_key_down event then
        [.key_down_handler event]
      else
        [.key_down_handler event, .interpret_key_events nsevent]

/-- `PointerButton` (the crate's normalized button identity). -/
inductive PointerButton
  | Primary
  | Secondary
  | Auxiliary
  | X1
  | X2
deriving DecidableEq, Repr

/-- A pointer call the view makes on the handler. -/
inductive PointerCall
  | pointer_up (buttons : List PointerButton)
  | pointer_move
  | pointer_leave
deriving DecidableEq, Repr

/-- The slice of `ViewState` consulted by the mouse callbacks: `focus_click`
tracks window-focusing left clicks, `mouse_left` whether a `mouseExited`
notification has already been received (mac/window.rs:187-190). -/
structure MouseViewState where
  focus_click : Bool
  mouse_left : Bool
deriving DecidableEq, Repr

/-- `mouse_up` (mac/window.rs:826-848).  `buttons` is the event's set of
still-held buttons as produced by `mouse_pointer_event` and copied before the
event is consumed; after `pointer_up`, if a `mouseExited` notification was
already received and no button is still held, the handler additionally
receives `pointer_leave`. -/
def mouse_up (vs : MouseViewState) (buttons : List PointerButton) (button : PointerButton) :
    MouseViewState × List PointerCall :=
  let vs' :=
    if vs.focus_click = true ∧ button = PointerButton.Primary then
      { vs with focus_click := false }
    else vs
  let calls := [PointerCall.pointer_up buttons]
  let calls :=
    if vs.mouse_left = true ∧ buttons.isEmpty = true then
      calls ++ [PointerCall.pointer_leave]
    else calls
  (vs', calls)

/-- `mouse_enter` (mac/window.rs:866-874): clear `mouse_left` and report a
pointer move. -/
def mouse_enter (vs : MouseViewState) : MouseViewState × List PointerCall :=
  ({ vs with mouse_left := false }, [PointerCall.pointer_move])

/-- `mouse_leave` (mac/window.rs:876-883): set `mouse_left` and report a
pointer leave. -/
def mouse_leave (vs : MouseViewState) : MouseViewState × List PointerCall :=
  ({ vs with mouse_left := true }, [PointerCall.pointer_leave])

end mac

/-- Invariant of the wayland keyboard repeat machinery: the loop holds at most
the single repeat-timer source named by `repeat_token`, stored tokens are
below the fresh counter, and disabled repeat forces no current repeat key. -/
def KbInv (s : wayland.KbState) : Prop :=
  (s.sources = [] ∨ ∃ t, s.sources = [t] ∧ s.repeat_token = some t)
  ∧ (∀ t, s.repeat_token = some t → t < s.next_reg)
  ∧ (s.repeat_info = wayland.RepeatInfo.Disable → s.current_repeat = none)

/-- C1: on the wayland backend, a `request_timer(deadline)` insertion cancels
the pending native timeouts and programs a new one if and only if `deadline`
is strictly earlier than the previously-earliest pending deadline in the
min-heap; in particular an insertion whose deadline equals the current
earliest deadline does not reprogram the native source. -/
theorem request_timer_reprograms_iff_strictly_sooner
    (wid deadline now d0 : Nat) (s : wayland.TimerAppData)
    (h : wayland.peekDeadline s.timers = some d0) :
    ((wayland.request_timer wid deadline now s).ops ≠ [] ↔ deadline < d0)
    ∧ (deadline = d0 → (wayland.request_timer wid deadline now s).ops = []) := by
  constructor
  · simp only [wayland.request_timer, h]
    by_cases hd : deadline < d0 <;> simp [hd]
  · intro he
    subst he
    simp [wayland.request_timer, h]

theorem request_timer_reprograms_iff_strictly_sooner_witness :
    wayland.peekDeadline [⟨1, 100, 0⟩] = some 100
    ∧ (((wayland.request_timer 1 50 7 ⟨[⟨1, 100, 0⟩], 1⟩).ops ≠ [] ↔ 50 < 100)
       ∧ (50 = 100 → (wayland.request_timer 1 50 7 ⟨[⟨1, 100, 0⟩], 1⟩).ops = [])) :=
  ⟨by decide,
   request_timer_reprograms_iff_strictly_sooner 1 50 7 100 ⟨[⟨1, 100, 0⟩], 1⟩ (by decide)⟩

/-- C8: a `request_timer` call whose deadline has already passed programs a
native timeout of exactly zero on both backends: the wayland backend computes
`Duration::ZERO` (and any `add_timeout` it issues carries timeout 0), and the
macOS backend computes NSTimer interval `0.0`; the call always returns the
freshly allocated token (it never blocks and never returns an error). -/
theorem request_timer_past_deadline_fires_immediately
    (wid deadline now : Nat) (s : wayland.TimerAppData) (h : deadline < now) :
    (wayland.request_timer wid deadline now s).timeout = 0
    ∧ (∀ t tok, wayland.NativeTimerOp.add_timeout t tok ∈
         (wayland.request_timer wid deadline now s).ops → t = 0)
    ∧ (wayland.request_timer wid deadline now s).token = s.next_token
    ∧ mac.time_interval_from_deadline deadline now = 0 := by
  refine ⟨by simp [wayland.request_timer, h], ?_, by simp [wayland.request_timer], ?_⟩
  · intro t tok hmem
    simp only [wayland.request_timer, h] at hmem
    rcases hz : wayland.peekDeadline s.timers with _ | d <;> simp [hz] at hmem
    · exact hmem.1
    · exact hmem.2.1
  · simp [mac.time_interval_from_deadline, Nat.le_of_lt h]

theorem request_timer_past_deadline_fires_immediately_witness :
    5 < 9
    ∧ ((wayland.request_timer 1 5 9 ⟨[], 0⟩).timeout = 0
       ∧ (∀ t tok, wayland.NativeTimerOp.add_timeout t tok ∈
            (wayland.request_timer 1 5 9 ⟨[], 0⟩).ops → t = 0)
       ∧ (wayland.request_timer 1 5 9 ⟨[], 0⟩).token = (0 : Nat)
       ∧ mac.time_interval_from_deadline 5 9 = 0) :=
  ⟨by decide, request_timer_past_deadline_fires_immediately 1 5 9 ⟨[], 0⟩ (by decide)⟩

/-- C2 (failing input): on the wayland backend, closing the same built handle
twice is not idempotent.  With two built windows (registry `[1, 2]`, active
stack `[2, 1]`), closing window 2 once leaves the stack `[1]`, but closing it
a second time pops window 1's id as well, because `close` never clears the
handle's inner state and unconditionally pops the front of the stack. -/
theorem close_twice_pops_second_id :
    wayland.close ⟨some (wayland.builtInner 2 ⟨500, 400⟩)⟩
        (wayland.close ⟨some (wayland.builtInner 2 ⟨500, 400⟩)⟩
          (wayland.build_registry 2 (wayland.build_registry 1 ⟨[], []⟩)))
    ≠ wayland.close ⟨some (wayland.builtInner 2 ⟨500, 400⟩)⟩
        (wayland.build_registry 2 (wayland.build_registry 1 ⟨[], []⟩)) := by
  decide

/-- C7: for a wayland window created with content size (500, 400), a configure
mandating client-side decorations whose frame adds a 10px border at the top
(and proposing no size) leaves `get_size()` at 500×400 while the outer window
geometry submitted to the compositor is 500×410 — the content size plus the
frame border insets. -/
theorem configure_csd_content_and_outer_size :
    wayland.get_size ⟨some (wayland.configure
        ⟨wayland.DecorationMode.Client, none, none, false, false, false⟩
        (some ⟨0, 0, 10, 0, false, 0, -10⟩)
        (wayland.builtInner 1 ⟨500, 400⟩)).1⟩ = ⟨500, 400⟩
    ∧ (wayland.configure
        ⟨wayland.DecorationMode.Client, none, none, false, false, false⟩
        (some ⟨0, 0, 10, 0, false, 0, -10⟩)
        (wayland.builtInner 1 ⟨500, 400⟩)).2.1.width = 500
    ∧ (wayland.configure
        ⟨wayland.DecorationMode.Client, none, none, false, false, false⟩
        (some ⟨0, 0, 10, 0, false, 0, -10⟩)
        (wayland.builtInner 1 ⟨500, 400⟩)).2.1.height = 410 := by
  decide

/-- C10: a default-constructed wayland `WindowHandle` (inner state absent)
reports size `Size::ZERO`, has no idle handle, and its `set_size` and `close`
return without panicking, without submitting anything to the compositor, and
without modifying handle or application state. -/
theorem default_window_handle_inert (app : wayland.AppData) (sz : Size) :
    wayland.get_size wayland.WindowHandle.default = Size.ZERO
    ∧ wayland.get_idle_handle wayland.WindowHandle.default = none
    ∧ wayland.set_size wayland.WindowHandle.default sz = (wayland.WindowHandle.default, none)
    ∧ wayland.close wayland.WindowHandle.default app = app :=
  ⟨rfl, rfl, rfl, rfl⟩

theorem sources_nil_of_token_none (s : wayland.KbState)
    (h1 : s.sources = [] ∨ ∃ t, s.sources = [t] ∧ s.repeat_token = some t)
    (hrt : s.repeat_token = none) : s.sources = [] := by
  rcases h1 with h1 | ⟨t, ht, htok⟩
  · exact h1
  · rw [hrt] at htok
    cases htok

theorem sources_erase_token_nil (s : wayland.KbState) (tok : Nat)
    (h1 : s.sources = [] ∨ ∃ t, s.sources = [t] ∧ s.repeat_token = some t)
    (hrt : s.repeat_token = some tok) : s.sources.erase tok = [] := by
  rcases h1 with h1 | ⟨t, ht, htok⟩
  · simp [h1]
  · rw [hrt] at htok
    injection htok with htok
    subst htok
    simp [ht]

theorem kb_step_key_pressed_enabled (s : wayland.KbState) (key g d : Nat)
    (hri : s.repeat_info = wayland.RepeatInfo.Repeat g d)
    (h1 : s.sources = [] ∨ ∃ t, s.sources = [t] ∧ s.repeat_token = some t) :
    wayland.kb_step (.key_pressed key) s =
      { repeat_info := wayland.RepeatInfo.Repeat g d, repeat_token := some s.next_reg,
        current_repeat := some (key + 8), sources := [s.next_reg],
        next_reg := s.next_reg + 1 } := by
  rcases hrt : s.repeat_token with _ | tok
  · have hs := sources_nil_of_token_none s h1 hrt
    simp [wayland.kb_step, hri, wayland.take_repeat_token, hrt, hs]
  · have hs := sources_erase_token_nil s tok h1 hrt
    simp [wayland.kb_step, hri, wayland.take_repeat_token, hrt, hs]

theorem kb_step_repeat_rate_zero (s : wayland.KbState) (delay : Nat)
    (h1 : s.sources = [] ∨ ∃ t, s.sources = [t] ∧ s.repeat_token = some t) :
    wayland.kb_step (.repeat_info_changed 0 delay) s =
      { repeat_info := wayland.RepeatInfo.Disable, repeat_token := none,
        current_repeat := none, sources := [], next_reg := s.next_reg } := by
  rcases hrt : s.repeat_token with _ | tok
  · have hs := sources_nil_of_token_none s h1 hrt
    simp [wayland.kb_step, wayland.take_repeat_token, hrt, hs]
  · have hs := sources_erase_token_nil s tok h1 hrt
    simp [wayland.kb_step, wayland.take_repeat_token, hrt, hs]

theorem kbInv_init : KbInv wayland.KbState.init := by
  refine ⟨Or.inl rfl, ?_, ?_⟩
  · intro t ht
    simp [wayland.KbState.init] at ht
  · intro hd
    simp [wayland.KbState.init, wayland.RepeatInfo.default] at hd

theorem kbInv_step (e : wayland.KbEvent) (s : wayland.KbState) (h : KbInv s) :
    KbInv (wayland.kb_step e s) := by
  obtain ⟨h1, h2, h3⟩ := h
  cases e with
  | enter => exact ⟨h1, h2, fun _ => rfl⟩
  | leave => exact ⟨h1, h2, fun _ => rfl⟩
  | key_pressed key =>
      rcases hri : s.repeat_info with ⟨g, d⟩ | _
      · rw [kb_step_key_pressed_enabled s key g d hri h1]
        refine ⟨Or.inr ⟨s.next_reg, rfl, rfl⟩, ?_, ?_⟩
        · intro t ht
          injection ht with ht
          show t < s.next_reg + 1
          omega
        · intro hd
          simp at hd
      · simpa only [wayland.kb_step, hri] using ⟨h1, h2, fun _ => h3 hri⟩
  | key_released key =>
      by_cases hri : s.repeat_info = wayland.RepeatInfo.Disable
      · simpa only [wayland.kb_step, hri, ne_eq, not_true_eq_false, if_false]
          using ⟨h1, h2, h3⟩
      · simp only [wayland.kb_step, ne_eq, hri, not_false_eq_true, if_true]
        exact ⟨h1, h2, fun _ => rfl⟩
  | repeat_info_changed rate delay =>
      by_cases hr : rate = 0
      · subst hr
        rw [kb_step_repeat_rate_zero s delay h1]
        refine ⟨Or.inl rfl, ?_, fun _ => rfl⟩
        intro t ht
        simp at ht
      · simp only [wayland.kb_step, hr, if_false]
        exact ⟨h1, h2, fun hd => by cases hd⟩
  | timer_fired tok =>
      by_cases hmem : tok ∈ s.sources
      · have hsrc : s.sources = [tok] ∧ s.repeat_token = some tok := by
          rcases h1 with h1 | ⟨t, ht, htok⟩
          · rw [h1] at hmem
            cases hmem
          · rw [ht] at hmem
            simp only [List.mem_singleton] at hmem
            subst hmem
            exact ⟨ht, htok⟩
        simp only [wayland.kb_step, hmem, if_true]
        rcases hcr : s.current_repeat with _ | k
        · refine ⟨Or.inl ?_, h2, fun _ => rfl⟩
          show s.sources.erase tok = []
          rw [hsrc.1]
          simp
        · rcases hri : s.repeat_info with ⟨g, d⟩ | _
          · exact ⟨h1, h2, fun hd => h3 hd⟩
          · refine ⟨Or.inl ?_, h2, fun _ => ?_⟩
            · show s.sources.erase tok = []
              rw [hsrc.1]
              simp
            · rw [hcr] at h3
              exact absurd (h3 hri) (by simp)
      · simpa only [wayland.kb_step, hmem, if_false] using ⟨h1, h2, h3⟩

theorem kbInv_run (evs : List wayland.KbEvent) (s : wayland.KbState) (h : KbInv s) :
    KbInv (wayland.kb_run evs s) := by
  induction evs generalizing s with
  | nil => exact h
  | cons e evs ih => exact ih _ (kbInv_step e s h)

/-- C3 (counterexample): a `RepeatInfo` event with a nonzero rate does NOT
cancel the currently scheduled repeat.  After a key press registers a repeat
timer, a `RepeatInfo { rate: 25, delay: 600 }` event leaves that registration
(and the current repeat key) in place; only the rate-0 case cancels. -/
theorem repeat_info_nonzero_keeps_scheduled_repeat :
    (wayland.kb_step (.repeat_info_changed 25 600)
        (wayland.kb_step (.key_pressed 30) wayland.KbState.init)).sources
      = (wayland.kb_step (.key_pressed 30) wayland.KbState.init).sources
    ∧ (wayland.kb_step (.key_pressed 30) wayland.KbState.init).sources ≠ []
    ∧ (wayland.kb_step (.repeat_info_changed 25 600)
        (wayland.kb_step (.key_pressed 30) wayland.KbState.init)).current_repeat
      = some 38 := by
  decide

/-- C3 (amended): when a `wl_keyboard` RepeatInfo event arrives in any
reachable keyboard state, rate == 0 sets the repeat state to Disable, clears
the current repeat key and removes any registered repeat timer from the event
loop; rate != 0 sets the repeat state to Repeat with gap = 1,000,000µs / rate
and delay in milliseconds while leaving the current repeat key and any
scheduled repeat timer in place (the new gap and delay only take effect from
the timer's next firing, which re-reads `repeat_info`). -/
theorem repeat_info_changed_effect (evs : List wayland.KbEvent) (rate delay : Nat)
    (s : wayland.KbState) (h : s = wayland.kb_run evs wayland.KbState.init) :
    wayland.kb_step (.repeat_info_changed rate delay) s =
      if rate = 0 then
        { repeat_info := wayland.RepeatInfo.Disable, repeat_token := none,
          current_repeat := none, sources := [], next_reg := s.next_reg }
      else
        { s with repeat_info := wayland.RepeatInfo.Repeat (1000000 / rate) (1000 * delay) } := by
  have inv : KbInv s := h ▸ kbInv_run evs _ kbInv_init
  by_cases hr : rate = 0
  · subst hr
    rw [kb_step_repeat_rate_zero s delay inv.1]
    simp
  · simp only [wayland.kb_step, hr, if_false]

theorem repeat_info_changed_effect_witness :
    wayland.kb_run [wayland.KbEvent.key_pressed 30] wayland.KbState.init
      = wayland.kb_run [wayland.KbEvent.key_pressed 30] wayland.KbState.init
    ∧ wayland.kb_step (.repeat_info_changed 0 7)
        (wayland.kb_run [wayland.KbEvent.key_pressed 30] wayland.KbState.init) =
      if (0 : Nat) = 0 then
        { repeat_info := wayland.RepeatInfo.Disable, repeat_token := none,
          current_repeat := none, sources := [],
          next_reg := (wayland.kb_run [wayland.KbEvent.key_pressed 30]
            wayland.KbState.init).next_reg }
      else
        { wayland.kb_run [wayland.KbEvent.key_pressed 30] wayland.KbState.init with
          repeat_info := wayland.RepeatInfo.Repeat (1000000 / 0) (1000 * 7) } :=
  ⟨rfl, repeat_info_changed_effect [wayland.KbEvent.key_pressed 30] 0 7 _ rfl⟩

/-- C4: in any reachable wayland keyboard state, at most one repeat timer
registration is live; when repeat is enabled, a key-down removes the existing
repeat timer registration, inserts a single new one, and replaces the current
repeat key with the newly pressed key (raw key + 8); a key-up clears the
current repeat key; keyboard focus enter and leave clear the current repeat
key. -/
theorem keyboard_at_most_one_repeat_timer (evs : List wayland.KbEvent) (k : Nat)
    (h : (wayland.kb_run evs wayland.KbState.init).repeat_info
        ≠ wayland.RepeatInfo.Disable) :
    (wayland.kb_run evs wayland.KbState.init).sources.length ≤ 1
    ∧ (wayland.kb_step (.key_pressed k)
        (wayland.kb_run evs wayland.KbState.init)).sources.length ≤ 1
    ∧ (wayland.kb_step (.key_pressed k)
        (wayland.kb_run evs wayland.KbState.init)).current_repeat = some (k + 8)
    ∧ (∀ t, (wayland.kb_run evs wayland.KbState.init).repeat_token = some t →
        t ∉ (wayland.kb_step (.key_pressed k)
          (wayland.kb_run evs wayland.KbState.init)).sources)
    ∧ (wayland.kb_step (.key_released k)
        (wayland.kb_run evs wayland.KbState.init)).current_repeat = none
    ∧ (wayland.kb_step wayland.KbEvent.enter
        (wayland.kb_run evs wayland.KbState.init)).current_repeat = none
    ∧ (wayland.kb_step wayland.KbEvent.leave
        (wayland.kb_run evs wayland.KbState.init)).current_repeat = none := by
  have inv : KbInv (wayland.kb_run evs wayland.KbState.init) :=
    kbInv_run evs _ kbInv_init
  obtain ⟨h1, h2, h3⟩ := inv
  rcases hri : (wayland.kb_run evs wayland.KbState.init).repeat_info with ⟨g, d⟩ | _
  · rw [kb_step_key_pressed_enabled _ k g d hri h1]
    refine ⟨?_, by simp, rfl, ?_, ?_, rfl, rfl⟩
    · rcases h1 with h1 | ⟨t, ht, _⟩
      · simp [h1]
      · simp [ht]
    · intro t ht
      have := h2 t ht
      simp only [List.mem_singleton]
      omega
    · simp only [wayland.kb_step, ne_eq, h, not_false_eq_true, if_true]
  · exact absurd hri h

theorem keyboard_at_most_one_repeat_timer_witness :
    (wayland.kb_run [] wayland.KbState.init).repeat_info ≠ wayland.RepeatInfo.Disable
    ∧ ((wayland.kb_run [] wayland.KbState.init).sources.length ≤ 1
      ∧ (wayland.kb_step (.key_pressed 5)
          (wayland.kb_run [] wayland.KbState.init)).sources.length ≤ 1
      ∧ (wayland.kb_step (.key_pressed 5)
          (wayland.kb_run [] wayland.KbState.init)).current_repeat = some (5 + 8)
      ∧ (∀ t, (wayland.kb_run [] wayland.KbState.init).repeat_token = some t →
          t ∉ (wayland.kb_step (.key_pressed 5)
            (wayland.kb_run [] wayland.KbState.init)).sources)
      ∧ (wayland.kb_step (.key_released 5)
          (wayland.kb_run [] wayland.KbState.init)).current_repeat = none
      ∧ (wayland.kb_step wayland.KbEvent.enter
          (wayland.kb_run [] wayland.KbState.init)).current_repeat = none
      ∧ (wayland.kb_step wayland.KbEvent.leave
          (wayland.kb_run [] wayland.KbState.init)).current_repeat = none) :=
  ⟨by decide, keyboard_at_most_one_repeat_timer [] 5 (by decide)⟩

theorem foldl_add_idle (l : List mac.IdleKind) (s : mac.IdleViewState) :
    (l.foldl (fun st it => mac.add_idle it st) s).idle_queue = s.idle_queue ++ l
    ∧ (l.foldl (fun st it => mac.add_idle it st) s).executed = s.executed := by
  induction l generalizing s with
  | nil => simp
  | cons a l ih =>
      simp only [List.foldl_cons]
      refine ⟨?_, ?_⟩
      · rw [(ih _).1]
        simp [mac.add_idle]
      · rw [(ih _).2]
        rfl

theorem execute_item_spec (enq : mac.IdleKind → List mac.IdleKind)
    (s : mac.IdleViewState) (item : mac.IdleKind) :
    (mac.execute_item enq s item).idle_queue = s.idle_queue ++ enq item
    ∧ (mac.execute_item enq s item).executed = s.executed ++ [item] := by
  unfold mac.execute_item
  exact ⟨(foldl_add_idle _ _).1, (foldl_add_idle _ _).2⟩

theorem foldl_execute_item (enq : mac.IdleKind → List mac.IdleKind)
    (q : List mac.IdleKind) (s : mac.IdleViewState) :
    (q.foldl (mac.execute_item enq) s).executed = s.executed ++ q
    ∧ (q.foldl (mac.execute_item enq) s).idle_queue
        = s.idle_queue ++ (q.map enq).flatten := by
  induction q generalizing s with
  | nil => simp
  | cons a q ih =>
      simp only [List.foldl_cons, List.map_cons, List.flatten]
      constructor
      · rw [(ih _).1, (execute_item_spec enq s a).2]
        simp
      · rw [(ih _).2, (execute_item_spec enq s a).1]
        simp

/-- C5: a single idle-queue drain pass (`run_idle`) takes the entire queue at
once, executes exactly the items present at the start of the pass in their
original insertion order, and every item enqueued through `add_idle` while
the drain executes ends up in the (previously emptied) shared queue instead
of being executed in the same pass. -/
theorem run_idle_drains_snapshot (enq : mac.IdleKind → List mac.IdleKind)
    (s : mac.IdleViewState) :
    (mac.run_idle enq s).executed = s.executed ++ s.idle_queue
    ∧ (mac.run_idle enq s).idle_queue = (s.idle_queue.map enq).flatten := by
  unfold mac.run_idle
  refine ⟨(foldl_execute_item enq _ _).1, ?_⟩
  rw [(foldl_execute_item enq _ _).2]
  simp

/-- C6 (counterexample): on the wayland backend an unconsumed key-down is not
forwarded anywhere: `key_input` discards the handler's `key_down` return
value, so even when the handler returns `false` the native event (here 37) is
not forwarded to any text-input/IME subsystem. -/
theorem wayland_unconsumed_key_not_forwarded :
    (wayland.key_input (fun _ => false) 37 wayland.KeyState.Down).2 ≠ some 37
    ∧ (wayland.key_input (fun _ => false) 37 wayland.KeyState.Down).2 = none := by
  exact ⟨by decide, rfl⟩

/-- C6 (amended): on the macOS backend, when a native key-down event produces
a normalized event, the handler's `key_down` is invoked with the normalized
event and, exactly when it returns false, the original native event object —
not the normalized form — is forwarded to `interpretKeyEvents`; when it
returns true no IME forwarding occurs.  (The wayland backend discards the
`key_down` return value and performs no IME forwarding.) -/
theorem mac_key_down_ime_forwarding (pn : Nat → Option Nat) (hl : Nat → Bool)
    (nsevent ev : Nat) (h : pn nsevent = some ev) :
    mac.key_down pn hl nsevent
      = if hl ev then [mac.KeyCall.key_down_handler ev]
        else [mac.KeyCall.key_down_handler ev, mac.KeyCall.interpret_key_events nsevent] := by
  simp [mac.key_down, h]

theorem mac_key_down_ime_forwarding_witness :
    (fun n => some (n + 100)) 3 = some 103
    ∧ mac.key_down (fun n => some (n + 100)) (fun _ => false) 3
        = if (fun _ : Nat => false) 103 then [mac.KeyCall.key_down_handler 103]
          else [mac.KeyCall.key_down_handler 103, mac.KeyCall.interpret_key_events 3] :=
  ⟨rfl, mac_key_down_ime_forwarding (fun n => some (n + 100)) (fun _ => false) 3 103 rfl⟩

/-- C9: on the macOS backend a pointer-up is followed by a synthetic
`pointer_leave` exactly when a `mouseExited` notification had already been
received (`mouse_left`) and the released button was the last one held (the
event's button set is empty); in every other case the handler receives only
`pointer_up`.  `mouse_leave` sets and `mouse_enter` clears `mouse_left`. -/
theorem mouse_up_pointer_leave_iff (vs : mac.MouseViewState)
    (buttons : List mac.PointerButton) (button : mac.PointerButton) :
    ((mac.mouse_up vs buttons button).2
        = [mac.PointerCall.pointer_up buttons, mac.PointerCall.pointer_leave]
      ↔ vs.mouse_left = true ∧ buttons = [])
    ∧ ((mac.mouse_up vs buttons button).2 = [mac.PointerCall.pointer_up buttons]
      ↔ ¬(vs.mouse_left = true ∧ buttons = []))
    ∧ (mac.mouse_leave vs).1.mouse_left = true
    ∧ (mac.mouse_enter vs).1.mouse_left = false := by
  by_cases hml : vs.mouse_left = true <;> by_cases hbe : buttons = [] <;>
    simp [mac.mouse_up, mac.mouse_leave, mac.mouse_enter, hml, hbe]

end Glazier
